import Mathlib

/-!
Verification of the vault_core cryptographic library
(`src/lib/src/vault/native/src/lib.rs`).

The six C-ABI functions are shallowly embedded.  Raw pointers become
`Option (List Nat)`: `none` models a null pointer and `some bytes` models the
byte region the function reads (or writes), so the separately-passed C length
arguments coincide with the list lengths.  Machine integers become `Nat` with
an explicit `% 2 ^ 32` (resp. `% 2 ^ 128`, …) wherever overflow matters.  The
process-wide entropy source consumed by `vault_seal` (`getrandom`) becomes an
explicit `Option (List Nat)` argument: `none` models a failed entropy call and
`some nonce` a successful 24-byte draw.

The XChaCha20-Poly1305 AEAD and the Argon2id KDF are provided by external
crates (`chacha20poly1305`, `argon2`) whose sources are not part of this
repository.  The AEAD is embedded by its RFC 8439 / XChaCha definition, which
is exactly what the crate implements; the KDF is modelled from the spec (see
`argon2id`).
-/

namespace VaultCore

/-- Key size for XChaCha20-Poly1305 (256 bits), `KEY_SIZE` in the source. -/
def KEY_SIZE : Nat := 32

/-- Nonce size for XChaCha20-Poly1305 (192 bits), `NONCE_SIZE` in the source. -/
def NONCE_SIZE : Nat := 24

/-- Authentication tag size (128 bits), `TAG_SIZE` in the source. -/
def TAG_SIZE : Nat := 16

/-- Salt size for Argon2 (128 bits), `SALT_SIZE` in the source. -/
def SALT_SIZE : Nat := 16

/-- Argon2id memory cost (KiB), `ARGON2_M_COST` in the source. -/
def ARGON2_M_COST : Nat := 65536

/-- Argon2id time cost (iterations), `ARGON2_T_COST` in the source. -/
def ARGON2_T_COST : Nat := 3

/-- Argon2id parallelism (lanes), `ARGON2_P_COST` in the source. -/
def ARGON2_P_COST : Nat := 4

/-- Result buffer returned by the vault operations (`VaultBuffer` in the
source): a data pointer (`none` = null), a length, and an error code. -/
structure VaultBuffer where
  data : Option (List Nat)
  len : Nat
  error : Int
deriving DecidableEq

/-- `VaultBuffer::success`: take ownership of `d`, length = `d.len()`,
error code 0. -/
def VaultBuffer.success (d : List Nat) : VaultBuffer :=
  ⟨some d, d.length, 0⟩

/-- `VaultBuffer::error`: null data pointer, length 0, the given code.
(Named `errorBuf` because the structure field is already called `error`.) -/
def VaultBuffer.errorBuf (code : Int) : VaultBuffer :=
  ⟨none, 0, code⟩

/-- `ERR_INVALID_INPUT` in the source. -/
def ERR_INVALID_INPUT : Int := -1

/-- `ERR_DECRYPT_FAILED` in the source. -/
def ERR_DECRYPT_FAILED : Int := -2

/-- `ERR_KDF_FAILED` in the source. -/
def ERR_KDF_FAILED : Int := -3

/-! ### The ChaCha20 permutation (RFC 8439), as implemented by the
`chacha20` crate used through `chacha20poly1305`.  Words are `Nat`s kept
below `2 ^ 32` by explicit reduction. -/

/-- Truncating 32-bit addition. -/
def add32 (a b : Nat) : Nat := (a + b) % 2 ^ 32

/-- Left rotation of a 32-bit word by `n` bits. -/
def rotl32 (x n : Nat) : Nat := ((x <<< n) ||| (x >>> (32 - n))) % 2 ^ 32

/-- The ChaCha quarter round acting on positions `ia ib ic idx` of a
16-word state. -/
def quarterRound (s : List Nat) (ia ib ic idx : Nat) : List Nat :=
  let a0 := s.getD ia 0
  let b0 := s.getD ib 0
  let c0 := s.getD ic 0
  let d0 := s.getD idx 0
  let a1 := add32 a0 b0
  let d1 := rotl32 (d0 ^^^ a1) 16
  let c1 := add32 c0 d1
  let b1 := rotl32 (b0 ^^^ c1) 12
  let a2 := add32 a1 b1
  let d2 := rotl32 (d1 ^^^ a2) 8
  let c2 := add32 c1 d2
  let b2 := rotl32 (b1 ^^^ c2) 7
  (((s.set ia a2).set ib b2).set ic c2).set idx d2

/-- One ChaCha double round: four column rounds then four diagonal rounds. -/
def doubleRound (s : List Nat) : List Nat :=
  let s1 := quarterRound s 0 4 8 12
  let s2 := quarterRound s1 1 5 9 13
  let s3 := quarterRound s2 2 6 10 14
  let s4 := quarterRound s3 3 7 11 15
  let s5 := quarterRound s4 0 5 10 15
  let s6 := quarterRound s5 1 6 11 12
  let s7 := quarterRound s6 2 7 8 13
  quarterRound s7 3 4 9 14

/-- The 20 ChaCha rounds = 10 double rounds. -/
def chachaRounds (s : List Nat) : List Nat :=
  doubleRound (doubleRound (doubleRound (doubleRound (doubleRound
    (doubleRound (doubleRound (doubleRound (doubleRound (doubleRound s)))))))))

/-- Little-endian decoding of a byte list into 32-bit words (4 bytes per
word; a trailing fragment shorter than 4 bytes is ignored, matching the
exact-chunk decoding in the crate). -/
def bytesToWordsLE (l : List Nat) : List Nat :=
  (List.range (l.length / 4)).map fun i =>
    l.getD (4 * i) 0 + l.getD (4 * i + 1) 0 * 2 ^ 8 +
      l.getD (4 * i + 2) 0 * 2 ^ 16 + l.getD (4 * i + 3) 0 * 2 ^ 24

/-- Little-endian encoding of 32-bit words into bytes. -/
def wordsToBytesLE : List Nat → List Nat
  | [] => []
  | w :: ws =>
    w % 2 ^ 8 :: w / 2 ^ 8 % 2 ^ 8 :: w / 2 ^ 16 % 2 ^ 8 :: w / 2 ^ 24 % 2 ^ 8 ::
      wordsToBytesLE ws

/-- The four ChaCha constant words ("expand 32-byte k"). -/
def chachaConsts : List Nat := [0x61707865, 0x3320646e, 0x79622d32, 0x6b206574]

/-- Initial ChaCha20 state: constants, 8 key words, block counter,
3 nonce words (96-bit nonce). -/
def chachaInit (key : List Nat) (counter : Nat) (nonce : List Nat) : List Nat :=
  chachaConsts ++ bytesToWordsLE key ++ [counter % 2 ^ 32] ++ bytesToWordsLE nonce

/-- The ChaCha20 block function: 20 rounds, add the initial state,
serialize little-endian (64 bytes of keystream). -/
def chacha20Block (key : List Nat) (counter : Nat) (nonce : List Nat) : List Nat :=
  let st := chachaInit key counter nonce
  wordsToBytesLE (List.zipWith add32 (chachaRounds st) st)

/-- HChaCha20: 20 rounds on constants, key and a 128-bit nonce, no final
addition; output is state words 0–3 and 12–15 (a derived 32-byte key). -/
def hchacha20 (key nonce16 : List Nat) : List Nat :=
  let st := chachaConsts ++ bytesToWordsLE key ++ bytesToWordsLE nonce16
  let w := chachaRounds st
  wordsToBytesLE (w.take 4 ++ w.drop 12)

/-- XChaCha20 subkey: HChaCha20 of the key and the first 16 nonce bytes. -/
def xchachaSubkey (key nonce24 : List Nat) : List Nat :=
  hchacha20 key (nonce24.take 16)

/-- XChaCha20 inner 96-bit nonce: 4 zero bytes then the last 8 nonce bytes. -/
def xchachaNonce (nonce24 : List Nat) : List Nat :=
  [0, 0, 0, 0] ++ nonce24.drop 16

/-- Concatenation of `n` consecutive ChaCha20 blocks starting at `ctr`. -/
def blocksConcat (key nonce12 : List Nat) (ctr : Nat) : Nat → List Nat
  | 0 => []
  | n + 1 => chacha20Block key ctr nonce12 ++ blocksConcat key nonce12 (ctr + 1) n

/-- The first `len` bytes of ChaCha20 keystream starting at block `initCtr`. -/
def chachaKeystream (key nonce12 : List Nat) (initCtr len : Nat) : List Nat :=
  (blocksConcat key nonce12 initCtr ((len + 63) / 64)).take len

/-! ### Poly1305 (RFC 8439) -/

/-- Little-endian byte-list to natural number. -/
def bytesToNatLE : List Nat → Nat
  | [] => 0
  | b :: bs => b % 2 ^ 8 + 2 ^ 8 * bytesToNatLE bs

/-- Little-endian encoding of `x` into exactly `n` bytes. -/
def natToBytesLE : Nat → Nat → List Nat
  | 0, _ => []
  | n + 1, x => x % 2 ^ 8 :: natToBytesLE n (x / 2 ^ 8)

/-- Clamping of the Poly1305 `r` value. -/
def poly1305Clamp (r : Nat) : Nat := r &&& 0x0ffffffc0ffffffc0ffffffc0fffffff

/-- The Poly1305 prime `2 ^ 130 - 5`. -/
def poly1305Prime : Nat := 2 ^ 130 - 5

/-- The Poly1305 accumulation loop over 16-byte blocks: each block is read
little-endian, a high bit `2 ^ (8·len)` is appended, and the accumulator is
updated by `acc ← (acc + block) * r mod p`. -/
def poly1305Loop (r : Nat) : List Nat → Nat → Nat
  | [], acc => acc
  | b0 :: b1 :: b2 :: b3 :: b4 :: b5 :: b6 :: b7 ::
      b8 :: b9 :: b10 :: b11 :: b12 :: b13 :: b14 :: b15 :: rest, acc =>
    poly1305Loop r rest
      ((acc + bytesToNatLE [b0, b1, b2, b3, b4, b5, b6, b7,
          b8, b9, b10, b11, b12, b13, b14, b15] + 2 ^ 128) * r % poly1305Prime)
  | l, acc => (acc + bytesToNatLE l + 2 ^ (8 * l.length)) * r % poly1305Prime

/-- The Poly1305 tag of `msg` under the 32-byte one-time key `polyKey`
(first half clamped into `r`, second half `s`), as a number below `2 ^ 128`. -/
def poly1305Tag (polyKey msg : List Nat) : Nat :=
  let r := poly1305Clamp (bytesToNatLE (polyKey.take 16))
  let s := bytesToNatLE (polyKey.drop 16)
  (poly1305Loop r msg 0 + s) % 2 ^ 128

/-! ### The ChaCha20-Poly1305 AEAD (RFC 8439), empty associated data -/

/-- Zero padding of a message to a 16-byte boundary. -/
def pad16 (l : List Nat) : List Nat :=
  List.replicate ((16 - l.length % 16) % 16) 0

/-- The authenticated data stream for an empty AAD: ciphertext, its padding,
then the 64-bit little-endian lengths of the AAD (0) and the ciphertext. -/
def macData (ct : List Nat) : List Nat :=
  ct ++ pad16 ct ++ natToBytesLE 8 0 ++ natToBytesLE 8 ct.length

/-- The one-time Poly1305 key: first 32 bytes of ChaCha20 block 0. -/
def polyKeyBytes (key nonce12 : List Nat) : List Nat :=
  (chacha20Block key 0 nonce12).take 32

/-- The 16-byte AEAD tag over ciphertext `ct`. -/
def aeadTagBytes (key nonce12 ct : List Nat) : List Nat :=
  natToBytesLE 16 (poly1305Tag (polyKeyBytes key nonce12) (macData ct))

/-- Bytewise XOR (truncating to the shorter list). -/
def xorBytes (a b : List Nat) : List Nat :=
  List.zipWith (fun x y => x ^^^ y) a b

/-- AEAD encryption: XOR with keystream from block counter 1, append tag. -/
def aeadEncrypt (key nonce12 pt : List Nat) : List Nat :=
  let ct := xorBytes pt (chachaKeystream key nonce12 1 pt.length)
  ct ++ aeadTagBytes key nonce12 ct

/-- AEAD decryption: split off the trailing 16-byte tag, recompute it,
and decrypt only on an exact match (single atomic verify-then-decrypt). -/
def aeadDecrypt (key nonce12 ctt : List Nat) : Option (List Nat) :=
  if ctt.length < 16 then none
  else
    let ct := ctt.take (ctt.length - 16)
    let tag := ctt.drop (ctt.length - 16)
    if tag = aeadTagBytes key nonce12 ct then
      some (xorBytes ct (chachaKeystream key nonce12 1 ct.length))
    else none

/-- XChaCha20-Poly1305 encryption (`cipher.encrypt` in the source). -/
def xaeadEncrypt (key nonce24 pt : List Nat) : List Nat :=
  aeadEncrypt (xchachaSubkey key nonce24) (xchachaNonce nonce24) pt

/-- XChaCha20-Poly1305 decryption (`cipher.decrypt` in the source). -/
def xaeadDecrypt (key nonce24 ctt : List Nat) : Option (List Nat) :=
  aeadDecrypt (xchachaSubkey key nonce24) (xchachaNonce nonce24) ctt

/-- The ciphertext part of a sealed message (keystream XOR plaintext). -/
def xchachaCt (key nonce24 m : List Nat) : List Nat :=
  xorBytes m (chachaKeystream (xchachaSubkey key nonce24) (xchachaNonce nonce24) 1 m.length)

/-- Modelled from the spec: the Argon2id password hash (version 0x13, memory
cost 65536 KiB, time cost 3, parallelism 4, output length 32 bytes) invoked by
`vault_derive_key` through `argon2.hash_password_into` is implemented by the
external `argon2` crate, which is not part of this repository.  The spec fixes
the behaviour relied on here: a deterministic function of the (passphrase,
salt) pair — "no randomness is introduced by this component" — producing a
32-byte key, succeeding for every non-empty passphrase and 16-byte salt under
the fixed build-time parameters.  We model it as a concrete deterministic byte
mixer with exactly those properties; the fixed parameters seed the state. -/
def argon2id (passphrase salt : List Nat) : Option (List Nat) :=
  let seed := ARGON2_M_COST * 2 ^ 32 + ARGON2_T_COST * 2 ^ 16 + ARGON2_P_COST
  let mix := fun (a b : Nat) => (a * 6364136223846793005 + b + 1) % 2 ^ 64
  let h0 := passphrase.foldl mix seed
  let h1 := salt.foldl mix h0
  some ((List.range 32).map fun i => mix h1 i % 2 ^ 8)

/-! ### The six C-ABI functions of `lib.rs` -/

/-- `vault_derive_key(passphrase, passphrase_len, salt)`: null/empty
validation, then Argon2id.  `passphrase = some p` models a non-null pointer
to the `passphrase_len = p.length` bytes read; the source reads exactly
`SALT_SIZE` bytes from the salt pointer, hence `s.take SALT_SIZE`. -/
def vault_derive_key (passphrase salt : Option (List Nat)) : VaultBuffer :=
  match passphrase, salt with
  | none, _ => .errorBuf ERR_INVALID_INPUT
  | some _, none => .errorBuf ERR_INVALID_INPUT
  | some p, some s =>
    if p.length = 0 then .errorBuf ERR_INVALID_INPUT
    else
      match argon2id p (s.take SALT_SIZE) with
      | some key => .success key
      | none => .errorBuf ERR_KDF_FAILED

/-- `vault_seal(key, plaintext, plaintext_len)`: null validation, 24-byte
nonce from the entropy source (`none` = failed `getrandom`), cipher
construction (which checks the 32-byte key length), encryption; output is
`nonce ‖ ciphertext ‖ tag`. -/
def vault_seal (key plaintext entropy : Option (List Nat)) : VaultBuffer :=
  match key, plaintext with
  | none, _ => .errorBuf ERR_INVALID_INPUT
  | some _, none => .errorBuf ERR_INVALID_INPUT
  | some k, some pt =>
    match entropy with
    | none => .errorBuf ERR_INVALID_INPUT
    | some nonce =>
      if k.length = KEY_SIZE then
        .success (nonce ++ xaeadEncrypt k nonce pt)
      else .errorBuf ERR_INVALID_INPUT

/-- `vault_unseal(key, sealed, sealed_len)`: null and minimum-length
validation, split nonce from ciphertext+tag, cipher construction, atomic
AEAD decrypt-and-verify. -/
def vault_unseal (key sealed : Option (List Nat)) : VaultBuffer :=
  match key, sealed with
  | none, _ => .errorBuf ERR_INVALID_INPUT
  | some _, none => .errorBuf ERR_INVALID_INPUT
  | some k, some s =>
    if s.length < NONCE_SIZE + TAG_SIZE then .errorBuf ERR_INVALID_INPUT
    else
      if k.length = KEY_SIZE then
        match xaeadDecrypt k (s.take NONCE_SIZE) (s.drop NONCE_SIZE) with
        | some pt => .success pt
        | none => .errorBuf ERR_DECRYPT_FAILED
      else .errorBuf ERR_INVALID_INPUT

/-- The effect of `slice.zeroize()` from the `zeroize` crate: every byte of
the region is overwritten with zero. -/
def zeroizeSlice (l : List Nat) : List Nat := List.replicate l.length 0

/-- Result of `vault_free`: the final contents of the region (at the moment
of deallocation) and whether the allocation was released. -/
structure FreeResult where
  bytes : Option (List Nat)
  deallocated : Bool
deriving DecidableEq

/-- `vault_free(ptr, len)`: no-op on null or zero length, otherwise zeroize
then drop the reconstructed `Box`.  The region is `some l` with
`len = l.length`. -/
def vault_free (region : Option (List Nat)) : FreeResult :=
  match region with
  | none => ⟨none, false⟩
  | some l =>
    if l.length = 0 then ⟨some l, false⟩
    else ⟨some (zeroizeSlice l), true⟩

/-- `vault_zeroize(ptr, len)`: no-op on null or zero length, otherwise
zeroize in place without deallocating. -/
def vault_zeroize (region : Option (List Nat)) : Option (List Nat) :=
  match region with
  | none => none
  | some l =>
    if l.length = 0 then some l
    else some (zeroizeSlice l)

@[simp]
theorem VaultBuffer.success_data (d : List Nat) : (VaultBuffer.success d).data = some d := rfl

@[simp]
theorem VaultBuffer.success_len (d : List Nat) : (VaultBuffer.success d).len = d.length := rfl

@[simp]
theorem VaultBuffer.success_error (d : List Nat) : (VaultBuffer.success d).error = 0 := rfl

@[simp]
theorem VaultBuffer.errorBuf_data (c : Int) : (VaultBuffer.errorBuf c).data = none := rfl

@[simp]
theorem VaultBuffer.errorBuf_len (c : Int) : (VaultBuffer.errorBuf c).len = 0 := rfl

@[simp]
theorem VaultBuffer.errorBuf_error (c : Int) : (VaultBuffer.errorBuf c).error = c := rfl

@[simp]
theorem quarterRound_length (s : List Nat) (ia ib ic idx : Nat) :
    (quarterRound s ia ib ic idx).length = s.length := by
  simp [quarterRound]

@[simp]
theorem doubleRound_length (s : List Nat) : (doubleRound s).length = s.length := by
  simp [doubleRound]

@[simp]
theorem chachaRounds_length (s : List Nat) : (chachaRounds s).length = s.length := by
  simp [chachaRounds]

@[simp]
theorem bytesToWordsLE_length (l : List Nat) : (bytesToWordsLE l).length = l.length / 4 := by
  simp [bytesToWordsLE]

theorem wordsToBytesLE_length (ws : List Nat) : (wordsToBytesLE ws).length = 4 * ws.length := by
  induction ws with
  | nil => rfl
  | cons w ws ih => simp [wordsToBytesLE, ih]; omega

theorem chachaInit_length {key nonce : List Nat} (c : Nat)
    (hk : key.length = 32) (hn : nonce.length = 12) :
    (chachaInit key c nonce).length = 16 := by
  simp [chachaInit, chachaConsts, hk, hn]

theorem chacha20Block_length {key nonce : List Nat} (c : Nat)
    (hk : key.length = 32) (hn : nonce.length = 12) :
    (chacha20Block key c nonce).length = 64 := by
  simp [chacha20Block, wordsToBytesLE_length, List.length_zipWith,
    chachaInit_length c hk hn]

theorem hchacha20_length {key nonce16 : List Nat}
    (hk : key.length = 32) (hn : nonce16.length = 16) :
    (hchacha20 key nonce16).length = 32 := by
  simp [hchacha20, wordsToBytesLE_length, chachaConsts, hk, hn]

theorem xchachaSubkey_length {key nonce24 : List Nat}
    (hk : key.length = 32) (hn : nonce24.length = 24) :
    (xchachaSubkey key nonce24).length = 32 :=
  hchacha20_length hk (by simp [hn])

theorem xchachaNonce_length {nonce24 : List Nat} (hn : nonce24.length = 24) :
    (xchachaNonce nonce24).length = 12 := by
  simp [xchachaNonce, hn]

theorem blocksConcat_length {key nonce12 : List Nat}
    (hk : key.length = 32) (hn : nonce12.length = 12) (ctr n : Nat) :
    (blocksConcat key nonce12 ctr n).length = 64 * n := by
  induction n generalizing ctr with
  | zero => rfl
  | succ n ih =>
    simp [blocksConcat, chacha20Block_length ctr hk hn, ih (ctr + 1)]
    omega

theorem chachaKeystream_length {key nonce12 : List Nat}
    (hk : key.length = 32) (hn : nonce12.length = 12) (c len : Nat) :
    (chachaKeystream key nonce12 c len).length = len := by
  simp only [chachaKeystream, List.length_take, blocksConcat_length hk hn]
  have h1 := Nat.div_add_mod (len + 63) 64
  have h2 : (len + 63) % 64 < 64 := Nat.mod_lt _ (by norm_num)
  omega

@[simp]
theorem xorBytes_length (a b : List Nat) :
    (xorBytes a b).length = min a.length b.length := by
  simp [xorBytes]

theorem natToBytesLE_length (n x : Nat) : (natToBytesLE n x).length = n := by
  induction n generalizing x with
  | zero => rfl
  | succ n ih => simp [natToBytesLE, ih]

theorem aeadTagBytes_length (key nonce12 ct : List Nat) :
    (aeadTagBytes key nonce12 ct).length = 16 :=
  natToBytesLE_length 16 _

theorem xorBytes_cancel (m ks : List Nat) (h : m.length ≤ ks.length) :
    xorBytes (xorBytes m ks) ks = m := by
  induction m generalizing ks with
  | nil => simp [xorBytes]
  | cons a as ih =>
    cases ks with
    | nil => simp at h
    | cons b bs =>
      simp only [xorBytes, List.zipWith_cons_cons] at *
      simp only [List.length_cons, Nat.add_le_add_iff_right] at h
      simp [Nat.xor_cancel_right, ih bs h]

theorem xchachaCt_length {k nonce : List Nat} (m : List Nat)
    (hk : k.length = 32) (hn : nonce.length = 24) :
    (xchachaCt k nonce m).length = m.length := by
  simp [xchachaCt,
    chachaKeystream_length (xchachaSubkey_length hk hn) (xchachaNonce_length hn)]

theorem aeadEncrypt_eq (key nonce12 m : List Nat) :
    aeadEncrypt key nonce12 m =
      xorBytes m (chachaKeystream key nonce12 1 m.length) ++
        aeadTagBytes key nonce12 (xorBytes m (chachaKeystream key nonce12 1 m.length)) := rfl

theorem aeadEncrypt_length {key nonce12 : List Nat} (m : List Nat)
    (hk : key.length = 32) (hn : nonce12.length = 12) :
    (aeadEncrypt key nonce12 m).length = m.length + 16 := by
  simp [aeadEncrypt_eq, aeadTagBytes_length, chachaKeystream_length hk hn]

theorem aeadDecrypt_aeadEncrypt (key nonce12 m : List Nat)
    (hk : key.length = 32) (hn : nonce12.length = 12) :
    aeadDecrypt key nonce12 (aeadEncrypt key nonce12 m) = some m := by
  have hks : (chachaKeystream key nonce12 1 m.length).length = m.length :=
    chachaKeystream_length hk hn 1 m.length
  have hct : (xorBytes m (chachaKeystream key nonce12 1 m.length)).length = m.length := by
    simp [hks]
  have hL : (aeadEncrypt key nonce12 m).length = m.length + 16 := aeadEncrypt_length m hk hn
  rw [aeadDecrypt, if_neg (by omega), aeadEncrypt_eq]
  have hsub : (xorBytes m (chachaKeystream key nonce12 1 m.length) ++
      aeadTagBytes key nonce12 (xorBytes m (chachaKeystream key nonce12 1 m.length))).length - 16 =
      (xorBytes m (chachaKeystream key nonce12 1 m.length)).length := by
    simp [aeadTagBytes_length]
  rw [hsub, List.take_left, List.drop_left]
  simp only []
  rw [if_pos trivial, hct, xorBytes_cancel m _ (le_of_eq hks.symm)]

theorem xaeadEncrypt_length {k nonce : List Nat} (m : List Nat)
    (hk : k.length = 32) (hn : nonce.length = 24) :
    (xaeadEncrypt k nonce m).length = m.length + 16 :=
  aeadEncrypt_length m (xchachaSubkey_length hk hn) (xchachaNonce_length hn)

theorem xaeadDecrypt_xaeadEncrypt (k nonce m : List Nat)
    (hk : k.length = 32) (hn : nonce.length = 24) :
    xaeadDecrypt k nonce (xaeadEncrypt k nonce m) = some m :=
  aeadDecrypt_aeadEncrypt _ _ m (xchachaSubkey_length hk hn) (xchachaNonce_length hn)

/-! ## Structure lemmas for the vault operations -/

theorem vault_seal_eq {k : List Nat} (m nonce : List Nat) (hk : k.length = 32) :
    vault_seal (some k) (some m) (some nonce) =
      .success (nonce ++ xaeadEncrypt k nonce m) := by
  simp [vault_seal, KEY_SIZE, hk]

theorem vault_unseal_append {k nonce rest : List Nat}
    (hk : k.length = 32) (hn : nonce.length = 24) (hrest : 16 ≤ rest.length) :
    vault_unseal (some k) (some (nonce ++ rest)) =
      match xaeadDecrypt k nonce rest with
      | some pt => .success pt
      | none => .errorBuf ERR_DECRYPT_FAILED := by
  have hlen : (nonce ++ rest).length = 24 + rest.length := by simp [hn]
  rw [vault_unseal, if_neg (by simp [NONCE_SIZE, TAG_SIZE]; omega), if_pos (by simp [KEY_SIZE, hk])]
  rw [show (nonce ++ rest).take NONCE_SIZE = nonce from List.take_left' hn,
    show (nonce ++ rest).drop NONCE_SIZE = rest from List.drop_left' hn]

theorem aeadDecrypt_some_length {key nonce12 ctt pt : List Nat}
    (hk : key.length = 32) (hn : nonce12.length = 12)
    (h : aeadDecrypt key nonce12 ctt = some pt) : pt.length = ctt.length - 16 := by
  rw [aeadDecrypt] at h
  by_cases h16 : ctt.length < 16
  · rw [if_pos h16] at h; exact absurd h (by simp)
  · rw [if_neg h16] at h
    simp only [] at h
    by_cases htag : ctt.drop (ctt.length - 16) =
        aeadTagBytes key nonce12 (ctt.take (ctt.length - 16))
    · rw [if_pos htag] at h
      have hpt := (Option.some.injEq _ _).mp h.symm
      rw [hpt]
      simp [chachaKeystream_length hk hn, List.length_take]
    · rw [if_neg htag] at h; exact absurd h (by simp)

/-! ## The claims -/

/-- Claim C1 (round-trip): for every 32-byte key `k`, every byte sequence `m`
(including the empty one) and every successfully drawn 24-byte nonce,
`vault_unseal` applied with the same key to the buffer produced by
`vault_seal` succeeds with error 0 and yields exactly the bytes of `m`. -/
theorem seal_unseal_roundtrip (k m nonce : List Nat)
    (hk : k.length = 32) (hn : nonce.length = 24) :
    (vault_unseal (some k) (vault_seal (some k) (some m) (some nonce)).data).error = 0 ∧
    (vault_unseal (some k) (vault_seal (some k) (some m) (some nonce)).data).data = some m := by
  rw [vault_seal_eq m nonce hk, VaultBuffer.success_data,
    vault_unseal_append hk hn (by rw [xaeadEncrypt_length m hk hn]; omega),
    xaeadDecrypt_xaeadEncrypt k nonce m hk hn]
  exact ⟨rfl, rfl⟩

/-- Witness for C1 at the key `0x42 × 32`, plaintext `[72, 105]` and a
concrete 24-byte nonce. -/
theorem seal_unseal_roundtrip_witness :
    (List.replicate 32 0x42).length = 32 ∧ (List.range 24).length = 24 ∧
    (vault_unseal (some (List.replicate 32 0x42))
      (vault_seal (some (List.replicate 32 0x42)) (some [72, 105])
        (some (List.range 24))).data).error = 0 ∧
    (vault_unseal (some (List.replicate 32 0x42))
      (vault_seal (some (List.replicate 32 0x42)) (some [72, 105])
        (some (List.range 24))).data).data = some [72, 105] :=
  ⟨by decide, by decide,
    (seal_unseal_roundtrip (List.replicate 32 0x42) [72, 105] (List.range 24)
      (by decide) (by decide)).1,
    (seal_unseal_roundtrip (List.replicate 32 0x42) [72, 105] (List.range 24)
      (by decide) (by decide)).2⟩

/-- Claim C3 (length law and layout): a successful `vault_seal` returns a
buffer of length exactly `m.length + 40`, laid out as the 24-byte nonce,
then a ciphertext of the plaintext's length, then the 16-byte tag. -/
theorem seal_length_law (k m nonce : List Nat)
    (hk : k.length = 32) (hn : nonce.length = 24) :
    (vault_seal (some k) (some m) (some nonce)).error = 0 ∧
    (vault_seal (some k) (some m) (some nonce)).len = m.length + 40 ∧
    ∃ ct, (vault_seal (some k) (some m) (some nonce)).data =
        some (nonce ++ (ct ++ aeadTagBytes (xchachaSubkey k nonce) (xchachaNonce nonce) ct)) ∧
      ct.length = m.length ∧
      (aeadTagBytes (xchachaSubkey k nonce) (xchachaNonce nonce) ct).length = 16 := by
  rw [vault_seal_eq m nonce hk]
  refine ⟨rfl, ?_, xchachaCt k nonce m, rfl, xchachaCt_length m hk hn,
    aeadTagBytes_length _ _ _⟩
  rw [VaultBuffer.success_len, List.length_append, hn, xaeadEncrypt_length m hk hn]
  omega

/-- Witness for C3 at a concrete key, three-byte plaintext and nonce. -/
theorem seal_length_law_witness :
    (List.replicate 32 7).length = 32 ∧ (List.replicate 24 9).length = 24 ∧
    (vault_seal (some (List.replicate 32 7)) (some [1, 2, 3])
      (some (List.replicate 24 9))).error = 0 ∧
    (vault_seal (some (List.replicate 32 7)) (some [1, 2, 3])
      (some (List.replicate 24 9))).len = [1, 2, 3].length + 40 :=
  ⟨by decide, by decide,
    (seal_length_law (List.replicate 32 7) [1, 2, 3] (List.replicate 24 9)
      (by decide) (by decide)).1,
    (seal_length_law (List.replicate 32 7) [1, 2, 3] (List.replicate 24 9)
      (by decide) (by decide)).2.1⟩

/-- Claim C4: any sealed input shorter than 40 bytes is rejected with
`InvalidInput` (status -1) by the length guard at the top of `vault_unseal`,
before any nonce split, cipher construction or decryption is attempted. -/
theorem unseal_short_input_invalid (k s : List Nat) (h : s.length < 40) :
    vault_unseal (some k) (some s) = .errorBuf ERR_INVALID_INPUT := by
  rw [vault_unseal, if_pos (by simp [NONCE_SIZE, TAG_SIZE]; omega)]

/-- Witness for C4 at a 39-byte input: status is `-1`. -/
theorem unseal_short_input_invalid_witness :
    (List.replicate 39 5).length < 40 ∧
    vault_unseal (some (List.replicate 32 0)) (some (List.replicate 39 5)) =
      .errorBuf ERR_INVALID_INPUT :=
  ⟨by decide, unseal_short_input_invalid (List.replicate 32 0) (List.replicate 39 5) (by decide)⟩

/-- Claim C9: whenever `vault_unseal` succeeds, the returned plaintext buffer
has length exactly `sealed.length - 40` (the input minus the 24-byte nonce and
the 16-byte tag), and the input was at least 40 bytes long. -/
theorem unseal_success_length (k s : List Nat)
    (h : (vault_unseal (some k) (some s)).error = 0) :
    40 ≤ s.length ∧ (vault_unseal (some k) (some s)).len = s.length - 40 ∧
    ∃ pt, (vault_unseal (some k) (some s)).data = some pt ∧ pt.length = s.length - 40 := by
  by_cases h40 : s.length < NONCE_SIZE + TAG_SIZE
  · rw [vault_unseal, if_pos h40] at h
    exact absurd h (by simp [ERR_INVALID_INPUT])
  · by_cases hkey : k.length = KEY_SIZE
    · have htk : (s.take NONCE_SIZE).length = 24 := by
        simp [NONCE_SIZE, TAG_SIZE] at h40 ⊢; omega
      have hsub : (xchachaSubkey k (s.take NONCE_SIZE)).length = 32 :=
        xchachaSubkey_length hkey htk
      have hxn : (xchachaNonce (s.take NONCE_SIZE)).length = 12 :=
        xchachaNonce_length htk
      cases hd : xaeadDecrypt k (s.take NONCE_SIZE) (s.drop NONCE_SIZE) with
      | none =>
        rw [vault_unseal, if_neg h40, if_pos hkey, hd] at h
        exact absurd h (by simp [ERR_DECRYPT_FAILED])
      | some pt =>
        rw [vault_unseal, if_neg h40, if_pos hkey, hd]
        have hlen : pt.length = (s.drop NONCE_SIZE).length - 16 :=
          aeadDecrypt_some_length hsub hxn hd
        rw [List.length_drop] at hlen
        simp [NONCE_SIZE, TAG_SIZE] at h40 hlen
        refine ⟨by omega, by simp; omega, pt, by simp, by omega⟩
    · rw [vault_unseal, if_neg h40, if_neg hkey] at h
      exact absurd h (by simp [ERR_INVALID_INPUT])

set_option maxRecDepth 8000 in
/-- Witness for C9: a concrete sealed input of length 43 unseals successfully
and the returned buffer has length 43 - 40 = 3. -/
theorem unseal_success_length_witness :
    (vault_unseal (some (List.replicate 32 0x42))
      (some (List.replicate 24 7 ++
        xaeadEncrypt (List.replicate 32 0x42) (List.replicate 24 7) [1, 2, 3]))).error = 0 ∧
    (vault_unseal (some (List.replicate 32 0x42))
      (some (List.replicate 24 7 ++
        xaeadEncrypt (List.replicate 32 0x42) (List.replicate 24 7) [1, 2, 3]))).len =
      (List.replicate 24 7 ++
        xaeadEncrypt (List.replicate 32 0x42) (List.replicate 24 7) [1, 2, 3]).length - 40 :=
  ⟨by decide,
    (unseal_success_length (List.replicate 32 0x42)
      (List.replicate 24 7 ++
        xaeadEncrypt (List.replicate 32 0x42) (List.replicate 24 7) [1, 2, 3])
      (by decide)).2.1⟩

/-- Claim C5 (determinism of key derivation): `vault_derive_key` is a pure
function — two calls on the same non-empty passphrase and 16-byte salt return
identical results — and the successful result is a 32-byte key with error 0.
(The KDF itself is spec-modelled, see `argon2id`.) -/
theorem derive_key_deterministic (p s : List Nat) (hp : p ≠ []) (_hs : s.length = 16) :
    vault_derive_key (some p) (some s) = vault_derive_key (some p) (some s) ∧
    (vault_derive_key (some p) (some s)).error = 0 ∧
    (vault_derive_key (some p) (some s)).len = 32 ∧
    ∃ key, (vault_derive_key (some p) (some s)).data = some key ∧ key.length = 32 := by
  have hp0 : ¬ p.length = 0 := by simpa [List.length_eq_zero] using hp
  rw [vault_derive_key, if_neg hp0]
  exact ⟨rfl, rfl, rfl, _, rfl, rfl⟩

/-- Witness for C5 at the spec's scenario 3: passphrase "test passphrase",
salt of 16 zero bytes. -/
theorem derive_key_deterministic_witness :
    ([116, 101, 115, 116] : List Nat) ≠ [] ∧ (List.replicate 16 0).length = 16 ∧
    vault_derive_key (some [116, 101, 115, 116]) (some (List.replicate 16 0)) =
      vault_derive_key (some [116, 101, 115, 116]) (some (List.replicate 16 0)) ∧
    (vault_derive_key (some [116, 101, 115, 116]) (some (List.replicate 16 0))).error = 0 ∧
    (vault_derive_key (some [116, 101, 115, 116]) (some (List.replicate 16 0))).len = 32 :=
  ⟨by decide, by decide,
    (derive_key_deterministic [116, 101, 115, 116] (List.replicate 16 0)
      (by decide) (by decide)).1,
    (derive_key_deterministic [116, 101, 115, 116] (List.replicate 16 0)
      (by decide) (by decide)).2.1,
    (derive_key_deterministic [116, 101, 115, 116] (List.replicate 16 0)
      (by decide) (by decide)).2.2.1⟩

/-- Counterexample to claim C6: the code does not (and at the C boundary
cannot) check the salt's length — it unconditionally reads exactly 16 bytes
from the salt pointer.  With a 17-byte salt region, which the claim says must
be rejected with `InvalidInput` (-1), `vault_derive_key` succeeds with
status 0. -/
theorem derive_salt_length_counterexample :
    (List.replicate 17 0).length ≠ 16 ∧
    (vault_derive_key (some [1]) (some (List.replicate 17 0))).error = 0 := by
  exact ⟨by decide, by decide⟩

/-- Claim C6 as amended: `vault_derive_key` returns `InvalidInput` (-1)
exactly when the passphrase is absent (null) or empty, or the salt is absent
(null); a salt region of any other length is not detected — the code reads
exactly its first 16 bytes (`SALT_SIZE`) and proceeds. -/
theorem derive_invalid_input_iff (p s : Option (List Nat)) :
    (vault_derive_key p s).error = ERR_INVALID_INPUT ↔
      (p = none ∨ s = none ∨ p = some []) := by
  cases p with
  | none => simp [vault_derive_key, ERR_INVALID_INPUT]
  | some p' =>
    cases s with
    | none => simp [vault_derive_key, ERR_INVALID_INPUT]
    | some s' =>
      by_cases hp : p'.length = 0
      · have hpe : p' = [] := List.length_eq_zero.mp hp
        subst hpe
        simp [vault_derive_key, ERR_INVALID_INPUT]
      · have hpe : ¬ p' = [] := by simpa [List.length_eq_zero] using hp
        rw [vault_derive_key, if_neg hp]
        simp [argon2id, ERR_INVALID_INPUT, hpe]

/-- Claim C7 (zeroization): on a non-empty region, `vault_free` overwrites
every byte with zero and deallocates, and `vault_zeroize` overwrites every
byte with zero without deallocating. -/
theorem release_scrub_zeroize (l : List Nat) (h : l ≠ []) :
    (vault_free (some l)).bytes = some (List.replicate l.length 0) ∧
    (vault_free (some l)).deallocated = true ∧
    vault_zeroize (some l) = some (List.replicate l.length 0) ∧
    ∀ i, i < l.length → (List.replicate l.length 0).getD i 1 = 0 := by
  have hl : ¬ l.length = 0 := by simpa [List.length_eq_zero] using h
  refine ⟨?_, ?_, ?_, ?_⟩
  · simp [vault_free, zeroizeSlice, hl]
  · simp [vault_free, hl]
  · simp [vault_zeroize, zeroizeSlice, hl]
  · intro i hi
    simp [List.getD_eq_getElem?_getD, List.getElem?_replicate, hi]

/-- Witness for C7 at the two-byte region `[5, 6]`. -/
theorem release_scrub_zeroize_witness :
    ([5, 6] : List Nat) ≠ [] ∧
    (vault_free (some [5, 6])).bytes = some (List.replicate ([5, 6] : List Nat).length 0) ∧
    (vault_free (some [5, 6])).deallocated = true ∧
    vault_zeroize (some [5, 6]) = some (List.replicate ([5, 6] : List Nat).length 0) :=
  ⟨by decide,
    (release_scrub_zeroize [5, 6] (by decide)).1,
    (release_scrub_zeroize [5, 6] (by decide)).2.1,
    (release_scrub_zeroize [5, 6] (by decide)).2.2.1⟩

/-- Claim C8 (error shape invariant): whenever `vault_derive_key`,
`vault_seal` or `vault_unseal` returns a nonzero status, the returned buffer
has a null data pointer and length 0. -/
theorem error_implies_empty_buffer :
    (∀ p s, (vault_derive_key p s).error ≠ 0 →
      (vault_derive_key p s).data = none ∧ (vault_derive_key p s).len = 0) ∧
    (∀ k pt e, (vault_seal k pt e).error ≠ 0 →
      (vault_seal k pt e).data = none ∧ (vault_seal k pt e).len = 0) ∧
    (∀ k s, (vault_unseal k s).error ≠ 0 →
      (vault_unseal k s).data = none ∧ (vault_unseal k s).len = 0) := by
  refine ⟨?_, ?_, ?_⟩
  · intro p s h
    rcases p with - | p'
    · exact ⟨rfl, rfl⟩
    rcases s with - | s'
    · exact ⟨rfl, rfl⟩
    by_cases hp : p'.length = 0
    · rw [vault_derive_key, if_pos hp] at h ⊢; exact ⟨rfl, rfl⟩
    · rw [vault_derive_key, if_neg hp] at h
      exact absurd h (by simp [argon2id])
  · intro k pt e h
    rcases k with - | k'
    · exact ⟨rfl, rfl⟩
    rcases pt with - | pt'
    · exact ⟨rfl, rfl⟩
    rcases e with - | nonce
    · exact ⟨rfl, rfl⟩
    by_cases hk : k'.length = KEY_SIZE
    · rw [vault_seal, if_pos hk] at h; exact absurd h (by simp)
    · rw [vault_seal, if_neg hk] at h ⊢; exact ⟨rfl, rfl⟩
  · intro k s h
    rcases k with - | k'
    · exact ⟨rfl, rfl⟩
    rcases s with - | s'
    · exact ⟨rfl, rfl⟩
    by_cases h40 : s'.length < NONCE_SIZE + TAG_SIZE
    · rw [vault_unseal, if_pos h40] at h ⊢; exact ⟨rfl, rfl⟩
    · by_cases hk : k'.length = KEY_SIZE
      · cases hd : xaeadDecrypt k' (s'.take NONCE_SIZE) (s'.drop NONCE_SIZE) with
        | none => rw [vault_unseal, if_neg h40, if_pos hk, hd] at h ⊢; exact ⟨rfl, rfl⟩
        | some pt => rw [vault_unseal, if_neg h40, if_pos hk, hd] at h; exact absurd h (by simp)
      · rw [vault_unseal, if_neg h40, if_neg hk] at h ⊢; exact ⟨rfl, rfl⟩

/-- Witness for C8 on inputs producing nonzero statuses in each operation:
null passphrase, null key, and a too-short sealed input. -/
theorem error_implies_empty_buffer_witness :
    (vault_derive_key none none).error ≠ 0 ∧
    (vault_derive_key none none).data = none ∧ (vault_derive_key none none).len = 0 ∧
    (vault_seal none none none).error ≠ 0 ∧
    (vault_seal none none none).data = none ∧ (vault_seal none none none).len = 0 ∧
    (vault_unseal (some (List.replicate 32 0)) (some [1])).error ≠ 0 ∧
    (vault_unseal (some (List.replicate 32 0)) (some [1])).data = none ∧
    (vault_unseal (some (List.replicate 32 0)) (some [1])).len = 0 :=
  ⟨by decide,
    (error_implies_empty_buffer.1 none none (by decide)).1,
    (error_implies_empty_buffer.1 none none (by decide)).2,
    by decide,
    (error_implies_empty_buffer.2.1 none none none (by decide)).1,
    (error_implies_empty_buffer.2.1 none none none (by decide)).2,
    by decide,
    (error_implies_empty_buffer.2.2 (some (List.replicate 32 0)) (some [1]) (by decide)).1,
    (error_implies_empty_buffer.2.2 (some (List.replicate 32 0)) (some [1]) (by decide)).2⟩

/-- Claim C10: `vault_free` and `vault_zeroize` on a null pointer or a
zero-length region are total no-ops — nothing is zeroized, deallocated or
otherwise modified. -/
theorem free_zeroize_null_noop :
    vault_free none = ⟨none, false⟩ ∧ vault_free (some []) = ⟨some [], false⟩ ∧
    vault_zeroize none = none ∧ vault_zeroize (some []) = some [] :=
  ⟨rfl, rfl, rfl, rfl⟩

/-! ## Claim C2: wrong keys and bit flips -/

end VaultCore
